import Mathlib

/-!
Verification of `lib/bup/helpers.py`: the `FSTime` timestamp type, the
`stat_result` factory, the `Conn` client-server protocol helpers
(`_check_ok`, `error`, `write`), the module-level `_hard_write` loop and
the `linereader` generator.

Python integers are embedded as `Int`; Python 2 floor division `/` and
floor modulus `%` on integers are embedded as `Int.fdiv` and `Int.fmod`,
which have exactly the Python semantics. Python floats appearing as stat
times are embedded as `ℚ` (only their identity matters here, never any
rounding). Byte strings are embedded as `List Char`.
-/

namespace BupHelpers

/-! ### FSTime, integer-nanosecond mode (the branch taken when
`_helpers.lstat` is available).  The internal `_value` is a signed
integer count of nanoseconds. -/

structure FSTime where
  _value : Int
deriving DecidableEq, Repr

/-- Source: `FSTime.from_timespec` (integer-nanosecond branch):
`ts._value = timespec[0] * 10**9 + timespec[1]`. -/
def FSTime.from_timespec (timespec : Int × Int) : FSTime :=
  ⟨timespec.1 * 10 ^ 9 + timespec.2⟩

/-- Source: `FSTime.from_stat_time` (integer-nanosecond branch) just
delegates to `from_timespec`. -/
def FSTime.from_stat_time (stat_time : Int × Int) : FSTime :=
  FSTime.from_timespec stat_time

/-- Source: `FSTime.secs_nsecs` (integer-nanosecond branch):
if `_value >= 0` return `(_value / 10**9, _value % 10**9)`, else with
`abs_val = -_value` return `(-(abs_val / 10**9), -(abs_val % 10**9))`.
Python 2 `/` and `%` on integers are floor division and floor modulus,
i.e. `Int.fdiv` and `Int.fmod`. -/
def FSTime.secs_nsecs (t : FSTime) : Int × Int :=
  if t._value ≥ 0 then
    (t._value.fdiv (10 ^ 9), t._value.fmod (10 ^ 9))
  else
    let abs_val := -t._value
    (-(abs_val.fdiv (10 ^ 9)), -(abs_val.fmod (10 ^ 9)))

/-- Source: `FSTime.to_timespec`: take `s_ns = secs_nsecs()`; if
`s_ns[0] > 0 or s_ns[1] >= 0` return it unchanged, otherwise return
`(s_ns[0] - 1, 10**9 + s_ns[1])`. -/
def FSTime.to_timespec (t : FSTime) : Int × Int :=
  let s_ns := t.secs_nsecs
  if s_ns.1 > 0 ∨ s_ns.2 ≥ 0 then s_ns
  else (s_ns.1 - 1, 10 ^ 9 + s_ns.2)

/-! ### FSTime, floating-point mode, and the `stat_result` factory.

In the float branch (`_helpers.lstat` unavailable) an `FSTime` stores in
`_value` whatever object `from_stat_time` received.  Python is
dynamically typed, so the stored object is not forced to be a number;
`PyVal` captures the dynamic values that actually arise in
`stat_result.from_stat_rep`: floats, and `FSTime` instances themselves. -/

inductive PyVal where
  | num (q : ℚ)
  | fstimeF (v : PyVal)
deriving DecidableEq, Repr

/-- Source: `FSTime.from_stat_time` (float branch): `ts._value = stat_time`,
for whatever object `stat_time` is. -/
def FSTime.from_stat_time_float (stat_time : PyVal) : PyVal :=
  .fstimeF stat_time

/-- Source: `FSTime.approx_secs` (float branch): `return self._value`.
`none` models the `AttributeError` raised when the receiver is not an
`FSTime` instance. -/
def FSTime.approx_secs_float : PyVal → Option PyVal
  | .fstimeF v => some v
  | .num _ => none

/-- A native stat payload on a platform without nanosecond timestamps:
an object with attribute access, times are floats. -/
structure NativeStatFloat where
  st_mode : Int
  st_ino : Int
  st_dev : Int
  st_nlink : Int
  st_uid : Int
  st_gid : Int
  st_rdev : Int
  st_size : Int
  st_atime : ℚ
  st_mtime : ℚ
  st_ctime : ℚ
deriving DecidableEq, Repr

/-- The `stat_result` produced on the float branch; its three time
fields hold whatever dynamic value the factory stored. -/
structure stat_resultF where
  st_mode : Int
  st_ino : Int
  st_dev : Int
  st_nlink : Int
  st_uid : Int
  st_gid : Int
  st_rdev : Int
  st_size : Int
  st_atime : PyVal
  st_mtime : PyVal
  st_ctime : PyVal
deriving DecidableEq, Repr

/-- Source: `stat_result.from_stat_rep`, `else` branch
(`_helpers._have_ns_fs_timestamps` false): the eight plain fields are
copied, `atime = FSTime.from_stat_time(st.st_atime)` (and likewise for
mtime/ctime), and then the shared tail applies `FSTime.from_stat_time`
to `atime`/`mtime`/`ctime` a second time. -/
def stat_result.from_stat_rep_float (st : NativeStatFloat) : stat_resultF :=
  let atime := FSTime.from_stat_time_float (.num st.st_atime)
  let mtime := FSTime.from_stat_time_float (.num st.st_mtime)
  let ctime := FSTime.from_stat_time_float (.num st.st_ctime)
  { st_mode := st.st_mode
    st_ino := st.st_ino
    st_dev := st.st_dev
    st_nlink := st.st_nlink
    st_uid := st.st_uid
    st_gid := st.st_gid
    st_rdev := st.st_rdev
    st_size := st.st_size
    st_atime := FSTime.from_stat_time_float atime
    st_mtime := FSTime.from_stat_time_float mtime
    st_ctime := FSTime.from_stat_time_float ctime }

/-- A native stat payload on a platform with nanosecond timestamps: an
11-tuple whose three time entries are `(seconds, nanoseconds)` pairs. -/
structure NativeStatNs where
  st_mode : Int
  st_ino : Int
  st_dev : Int
  st_nlink : Int
  st_uid : Int
  st_gid : Int
  st_rdev : Int
  st_size : Int
  atime : Int × Int
  mtime : Int × Int
  ctime : Int × Int
deriving DecidableEq, Repr

/-- The `stat_result` produced on the nanosecond branch. -/
structure stat_resultNs where
  st_mode : Int
  st_ino : Int
  st_dev : Int
  st_nlink : Int
  st_uid : Int
  st_gid : Int
  st_rdev : Int
  st_size : Int
  st_atime : FSTime
  st_mtime : FSTime
  st_ctime : FSTime
deriving DecidableEq, Repr

/-- Source: `stat_result.from_stat_rep`, `if` branch
(`_helpers._have_ns_fs_timestamps` true): the tuple is unpacked, leaving
`atime`/`mtime`/`ctime` as the raw timespec pairs, and the shared tail
applies `FSTime.from_stat_time` (= `from_timespec`) exactly once. -/
def stat_result.from_stat_rep_ns (st : NativeStatNs) : stat_resultNs :=
  { st_mode := st.st_mode
    st_ino := st.st_ino
    st_dev := st.st_dev
    st_nlink := st.st_nlink
    st_uid := st.st_uid
    st_gid := st.st_gid
    st_rdev := st.st_rdev
    st_size := st.st_size
    st_atime := FSTime.from_stat_time st.atime
    st_mtime := FSTime.from_stat_time st.mtime
    st_ctime := FSTime.from_stat_time st.ctime }

/-- Concrete float-mode stat payload used to exhibit the double wrap. -/
def exampleStatFloat : NativeStatFloat :=
  ⟨1, 2, 3, 4, 5, 6, 7, 8, 5, 6, 7⟩

/-- Concrete nanosecond-mode stat payload. -/
def exampleStatNs : NativeStatNs :=
  ⟨1, 2, 3, 4, 5, 6, 7, 8, (2, 3), (4, 5), (6, 7)⟩

end BupHelpers

namespace BupHelpers

/-! ### Line reading.

`linereader(f)` repeatedly calls `f.readline()` — which returns
everything up to and including the next newline, the unterminated
remainder at end of stream, or the empty string at end of stream — and
yields `line[:-1]` until `readline` returns the empty string.  The input
stream is embedded as the list of characters remaining to be read. -/

/-- One `readline()` call on the remaining stream: returns the line read
(including its trailing newline, or the whole remainder if no newline
occurs) and the rest of the stream. -/
def readline : List Char → List Char × List Char
  | [] => ([], [])
  | c :: cs =>
    if c = '\n' then ([c], cs)
    else
      let p := readline cs
      (c :: p.1, p.2)

/-- Fuel-driven worker for `linereader`; consuming one line always
shortens the stream, so `s.length` fuel suffices.  Mirrors the loop
`line = f.readline(); if not line: break; yield line[:-1]`. -/
def linereaderGo : Nat → List Char → List (List Char)
  | 0, _ => []
  | fuel + 1, s =>
    let p := readline s
    if p.1 = [] then []
    else p.1.dropLast :: linereaderGo fuel p.2

/-- Source: `linereader(f)`: the list of lines yielded, each one the
`readline()` result with its final character removed (`line[:-1]`). -/
def linereader (s : List Char) : List (List Char) :=
  linereaderGo s.length s

/-! ### The completion scanner `Conn._check_ok` and its two modes. -/

/-- Outcome of one completion scan.  `ok` and `notOk` are values
returned by `_check_ok` (`None` and `NotOk(msg)` respectively);
`protocolViolation` is the exception raised by the strict `onempty`
handler inside `check_ok`; `unexpectedExit` is the
the exception (server exited unexpectedly; see errors above) raised after
the line loop ends. -/
inductive CheckResult where
  | ok
  | notOk (msg : List Char)
  | protocolViolation (rl : List Char)
  | unexpectedExit
deriving DecidableEq, Repr

/-- Source: the loop body of `Conn._check_ok(onempty)` over the lines
produced by `linereader(self.inp)`: skip empty lines, return on `ok`,
return the value NotOk of the line after its first six characters on a line starting with `error `, otherwise
call `onempty(rl)` — `none` models a handler that returns (the loop
continues), `some r` models a handler that raises `r`. -/
def Conn.check_ok_aux (onempty : List Char → Option CheckResult) :
    List (List Char) → CheckResult
  | [] => .unexpectedExit
  | rl :: rest =>
    if rl = [] then Conn.check_ok_aux onempty rest
    else if rl = "ok".data then .ok
    else if "error ".data.isPrefixOf rl then .notOk (rl.drop 6)
    else
      match onempty rl with
      | some r => r
      | none => Conn.check_ok_aux onempty rest

/-- Source: `Conn.drain_and_check_ok`: `onempty` does nothing. -/
def Conn.drain_and_check_ok (lines : List (List Char)) : CheckResult :=
  Conn.check_ok_aux (fun _ => none) lines

/-- Source: `Conn.check_ok`: `onempty` raises
an exception reporting the unexpected line (expected ok, got the line). -/
def Conn.check_ok (lines : List (List Char)) : CheckResult :=
  Conn.check_ok_aux (fun rl => some (.protocolViolation rl)) lines

/-! ### `Conn.error` and whitespace collapsing. -/

/-- Python 2 `\s` on byte strings: space, tab, newline, carriage
return, vertical tab, form feed. -/
def isPySpace (c : Char) : Bool :=
  c == ' ' || c == '\t' || c == '\n' || c == '\r' || c == '\x0b' || c == '\x0c'

/-- Worker for `re.sub(r'\s+', ' ', s)`: each maximal whitespace run
contributes a single space at its start; the flag records whether the
previous character belonged to a whitespace run already replaced. -/
def collapseAux : Bool → List Char → List Char
  | _, [] => []
  | inRun, c :: cs =>
    if isPySpace c then
      if inRun then collapseAux true cs
      else ' ' :: collapseAux true cs
    else c :: collapseAux false cs

/-- Source: `re.sub(r'\s+', ' ', str(s))` in `Conn.error`. -/
def collapseWS (s : List Char) : List Char :=
  collapseAux false s

/-- Source: `Conn.error(s)`: the exact bytes handed to `self.write`,
namely `'\nerror %s\n' % re.sub(r'\s+', ' ', str(s))`. -/
def Conn.error (s : List Char) : List Char :=
  '\n' :: ("error ".data ++ collapseWS s ++ ['\n'])

/-! ### `Conn.write` and the output stream.

`Conn.write(data)` is `self.outp.write(data)`: a single buffered
file-object write.  The stream is modelled with the bytes queued in the
file object and the bytes actually delivered to the descriptor;
`flush` moves the former to the latter. -/

structure OutStream where
  buffered : List Char
  sent : List Char
deriving DecidableEq, Repr

/-- Source: `Conn.write(data)`: one call `self.outp.write(data)` — the
data is appended to the file object buffer; nothing reaches the
descriptor until a flush. -/
def Conn.write (data : List Char) (st : OutStream) : OutStream :=
  { st with buffered := st.buffered ++ data }

/-- `outp.flush()`: deliver everything buffered to the descriptor. -/
def OutStream.flush (st : OutStream) : OutStream :=
  ⟨[], st.sent ++ st.buffered⟩

/-! ### `_hard_write`.

The environment supplies, per loop iteration `i`, the `select` verdict
(is the descriptor reported writable?) and the outcome of
`os.write(fd, buf)`.  The executor is fuel-driven so that divergence is
observable as `outOfFuel` for every fuel value.  The `last` argument
tracks the Python local `sz`, which survives from one iteration to the
next and is unbound before the first write; on `EAGAIN` the source
swallows the exception and falls through to `assert(sz >= 0)` and
`buf = buf[sz:]` with the stale `sz`. -/

inductive WriteRes where
  | ok (n : Nat)
  | eagain
  | err
deriving DecidableEq, Repr

inductive HWResult where
  | done
  | raisedIOError
  | raisedOSError
  | raisedNameError
  | outOfFuel
deriving DecidableEq, Repr

/-- Source: the `while buf:` loop of `_hard_write`. -/
def hardWriteRun (sel : Nat → Bool) (wr : Nat → WriteRes) :
    Nat → Nat → List Char → Option Nat → HWResult
  | _, _, [], _ => .done
  | _, 0, _ :: _, _ => .outOfFuel
  | i, fuel + 1, c :: cs, last =>
    if sel i then
      match wr i with
      | .ok n => hardWriteRun sel wr (i + 1) fuel ((c :: cs).drop n) (some n)
      | .eagain =>
        match last with
        | none => .raisedNameError
        | some n => hardWriteRun sel wr (i + 1) fuel ((c :: cs).drop n) (some n)
      | .err => .raisedOSError
    else .raisedIOError

/-- An environment whose readiness poll always reports the descriptor
writable. -/
def selWritable : Nat → Bool := fun _ => true

/-- An environment whose readiness poll never reports the descriptor
writable. -/
def selNever : Nat → Bool := fun _ => false

/-- An `os.write` that accepts zero bytes on every attempt. -/
def wrZero : Nat → WriteRes := fun _ => .ok 0

end BupHelpers

namespace BupHelpers

/-! ### Helper lemmas about `readline` and `linereader`. -/

theorem readline_fst_append_snd (s : List Char) :
    (readline s).1 ++ (readline s).2 = s := by
  induction s with
  | nil => rfl
  | cons c cs ih =>
    simp only [readline]
    split
    · simp
    · simpa using ih

theorem readline_fst_ne_nil (c : Char) (cs : List Char) :
    (readline (c :: cs)).1 ≠ [] := by
  simp only [readline]
  split <;> simp

theorem linereaderGo_nil (n : Nat) : linereaderGo n [] = [] := by
  cases n <;> rfl

theorem linereaderGo_fuel :
    ∀ n m : Nat, ∀ s : List Char, s.length ≤ n → s.length ≤ m →
      linereaderGo n s = linereaderGo m s := by
  intro n
  induction n with
  | zero =>
    intro m s hn _
    have hs : s = [] := by cases s <;> simp_all
    subst hs
    rw [linereaderGo_nil, linereaderGo_nil]
  | succ n ih =>
    intro m s hn hm
    cases s with
    | nil => rw [linereaderGo_nil, linereaderGo_nil]
    | cons c cs =>
      obtain ⟨m', rfl⟩ : ∃ m', m = m' + 1 := by
        refine ⟨m - 1, ?_⟩
        simp only [List.length_cons] at hm
        omega
      have happ := readline_fst_append_snd (c :: cs)
      have hne := readline_fst_ne_nil c cs
      simp only [linereaderGo]
      rw [if_neg hne, if_neg hne]
      have hr : (readline (c :: cs)).2.length ≤ cs.length := by
        have := congrArg List.length happ
        rcases hl : (readline (c :: cs)).1 with _ | ⟨a, as⟩
        · exact absurd hl hne
        · rw [hl] at this
          simp only [List.length_append, List.length_cons] at this
          omega
      rw [ih m' (readline (c :: cs)).2 (by simp only [List.length_cons] at hn; omega)
        (by simp only [List.length_cons] at hm; omega)]

theorem linereader_cons_of_readline {s l r : List Char}
    (h : readline s = (l, r)) (hl : l ≠ []) :
    linereader s = l.dropLast :: linereader r := by
  cases s with
  | nil =>
    cases h
    exact absurd rfl hl
  | cons c cs =>
    have happ := readline_fst_append_snd (c :: cs)
    rw [h] at happ
    have hr : r.length ≤ cs.length := by
      have := congrArg List.length happ
      cases l with
      | nil => exact absurd rfl hl
      | cons a as =>
        simp only [List.length_append, List.length_cons] at this
        omega
    unfold linereader
    simp only [List.length_cons, linereaderGo, h]
    rw [if_neg hl]
    rw [linereaderGo_fuel cs.length r.length r hr le_rfl]

theorem readline_of_no_newline {s : List Char} (h : '\n' ∉ s) :
    readline s = (s, []) := by
  induction s with
  | nil => rfl
  | cons c cs ih =>
    simp only [List.mem_cons, not_or] at h
    have hc : ¬(c = '\n') := fun e => h.1 e.symm
    simp only [readline, if_neg hc, ih h.2]

theorem readline_append_newline {pre : List Char} (post : List Char)
    (h : '\n' ∉ pre) :
    readline (pre ++ '\n' :: post) = (pre ++ ['\n'], post) := by
  induction pre with
  | nil => simp [readline]
  | cons c cs ih =>
    simp only [List.mem_cons, not_or] at h
    have hc : ¬(c = '\n') := fun e => h.1 e.symm
    show readline (c :: (cs ++ '\n' :: post)) = (c :: (cs ++ ['\n']), post)
    simp only [readline, if_neg hc, ih h.2]

end BupHelpers

namespace BupHelpers

/-! ### Helper lemmas about the completion scanner. -/

theorem check_ok_aux_blank (onempty : List Char → Option CheckResult)
    (ls : List (List Char)) :
    Conn.check_ok_aux onempty ([] :: ls) = Conn.check_ok_aux onempty ls := by
  simp [Conn.check_ok_aux]

theorem check_ok_aux_ok_line (onempty : List Char → Option CheckResult)
    (ls : List (List Char)) :
    Conn.check_ok_aux onempty ("ok".data :: ls) = .ok := by
  simp only [Conn.check_ok_aux]
  rw [if_neg (by decide), if_pos (by decide)]

theorem check_ok_aux_error_line (onempty : List Char → Option CheckResult)
    (m : List Char) (ls : List (List Char)) :
    Conn.check_ok_aux onempty (("error ".data ++ m) :: ls) = .notOk m := by
  simp only [Conn.check_ok_aux]
  rw [if_neg (by simp), if_neg (by simp),
    if_pos (List.isPrefixOf_iff_prefix.mpr (List.prefix_append _ _)),
    List.drop_left' (by rfl)]

theorem check_ok_aux_other_line (onempty : List Char → Option CheckResult)
    (rl : List Char) (ls : List (List Char)) (h0 : rl ≠ [])
    (h1 : rl ≠ "ok".data) (h2 : "error ".data.isPrefixOf rl = false) :
    Conn.check_ok_aux onempty (rl :: ls) =
      match onempty rl with
      | some r => r
      | none => Conn.check_ok_aux onempty ls := by
  simp only [Conn.check_ok_aux]
  rw [if_neg h0, if_neg h1, if_neg (by simp [h2])]

theorem check_ok_aux_no_sentinel_drain (ls : List (List Char))
    (h : ∀ rl ∈ ls, rl ≠ "ok".data ∧ "error ".data.isPrefixOf rl = false) :
    Conn.drain_and_check_ok ls = .unexpectedExit := by
  induction ls with
  | nil => rfl
  | cons rl rest ih =>
    have hh := h rl (List.mem_cons_self rl rest)
    have hrest : ∀ x ∈ rest, x ≠ "ok".data ∧ "error ".data.isPrefixOf x = false :=
      fun x hx => h x (List.mem_cons_of_mem rl hx)
    by_cases h0 : rl = []
    · subst h0
      rw [show Conn.drain_and_check_ok ([] :: rest) =
            Conn.drain_and_check_ok rest from check_ok_aux_blank _ rest]
      exact ih hrest
    · unfold Conn.drain_and_check_ok at ih ⊢
      rw [check_ok_aux_other_line _ rl rest h0 hh.1 hh.2]
      exact ih hrest

theorem check_ok_aux_no_sentinel_strict (ls : List (List Char))
    (h : ∀ rl ∈ ls, rl ≠ "ok".data ∧ "error ".data.isPrefixOf rl = false) :
    (Conn.check_ok ls = .unexpectedExit ∨
      ∃ rl ∈ ls, Conn.check_ok ls = .protocolViolation rl) ∧
    Conn.check_ok ls ≠ .ok ∧ ∀ msg, Conn.check_ok ls ≠ .notOk msg := by
  induction ls with
  | nil => exact ⟨Or.inl rfl, by simp [Conn.check_ok, Conn.check_ok_aux],
      fun msg => by simp [Conn.check_ok, Conn.check_ok_aux]⟩
  | cons rl rest ih =>
    have hh := h rl (List.mem_cons_self rl rest)
    have hrest : ∀ x ∈ rest, x ≠ "ok".data ∧ "error ".data.isPrefixOf x = false :=
      fun x hx => h x (List.mem_cons_of_mem rl hx)
    obtain ⟨ihor, ihok, ihnotok⟩ := ih hrest
    by_cases h0 : rl = []
    · subst h0
      unfold Conn.check_ok at ihor ihok ihnotok ⊢
      rw [check_ok_aux_blank]
      refine ⟨?_, ihok, ihnotok⟩
      rcases ihor with h' | ⟨x, hx, h'⟩
      · exact Or.inl h'
      · exact Or.inr ⟨x, List.mem_cons_of_mem _ hx, h'⟩
    · unfold Conn.check_ok at ihor ihok ihnotok ⊢
      rw [check_ok_aux_other_line _ rl rest h0 hh.1 hh.2]
      exact ⟨Or.inr ⟨rl, List.mem_cons_self rl rest, rfl⟩, by simp, fun msg => by simp⟩

end BupHelpers

namespace BupHelpers

/-- Characterization of `to_timespec` as a function of the raw
nanosecond count, with Python floor division rewritten to `ediv` and
`emod` so that `omega` can settle each branch. -/
theorem to_timespec_char (v : Int) :
    0 ≤ (FSTime.to_timespec ⟨v⟩).2 ∧ (FSTime.to_timespec ⟨v⟩).2 < 10 ^ 9 ∧
      (FSTime.to_timespec ⟨v⟩).1 * 10 ^ 9 + (FSTime.to_timespec ⟨v⟩).2 = v := by
  have hN : (0 : Int) ≤ 10 ^ 9 := by norm_num
  unfold FSTime.to_timespec FSTime.secs_nsecs
  simp only [Int.fdiv_eq_ediv _ hN, Int.fmod_eq_emod _ hN]
  split_ifs <;> dsimp only <;> omega

/-- C1: for every integer-nanosecond instant given as a
`(seconds, nanoseconds)` pair, `from_timespec` followed by
`to_timespec` yields `(s, ns)` with `0 ≤ ns < 10^9` and
`s * 10^9 + ns` equal to the original nanosecond count; negative
instants are carried into a decremented `s`, never a negative `ns`. -/
theorem c1_from_parts_to_timespec (a b : Int) :
    0 ≤ ((FSTime.from_timespec (a, b)).to_timespec).2 ∧
      ((FSTime.from_timespec (a, b)).to_timespec).2 < 10 ^ 9 ∧
      ((FSTime.from_timespec (a, b)).to_timespec).1 * 10 ^ 9 +
        ((FSTime.from_timespec (a, b)).to_timespec).2 = a * 10 ^ 9 + b :=
  to_timespec_char (a * 10 ^ 9 + b)

/-- C2 (code bug): on the branch without nanosecond stat support,
`stat_result.from_stat_rep` applies `FSTime.from_stat_time` to values
that are already `FSTime` instances, so each time field is an `FSTime`
wrapping another `FSTime` instead of one wrapping the native time:
`approx_secs` on such a field returns an `FSTime` object, never the
numeric seconds.  On the nanosecond branch the raw timespec is wrapped
exactly once, so the two branches do not produce the same shape. -/
theorem c2_stat_times_double_wrapped :
    (stat_result.from_stat_rep_float exampleStatFloat).st_atime =
      .fstimeF (.fstimeF (.num 5)) ∧
    (stat_result.from_stat_rep_float exampleStatFloat).st_mtime =
      .fstimeF (.fstimeF (.num 6)) ∧
    (stat_result.from_stat_rep_float exampleStatFloat).st_ctime =
      .fstimeF (.fstimeF (.num 7)) ∧
    (∀ q : ℚ, FSTime.approx_secs_float
        ((stat_result.from_stat_rep_float exampleStatFloat).st_atime) ≠
        some (.num q)) ∧
    (stat_result.from_stat_rep_ns exampleStatNs).st_atime = ⟨2 * 10 ^ 9 + 3⟩ := by
  refine ⟨rfl, rfl, rfl, fun q h => ?_, rfl⟩
  rw [show FSTime.approx_secs_float
      ((stat_result.from_stat_rep_float exampleStatFloat).st_atime) =
      some (.fstimeF (.num 5)) from rfl] at h
  exact PyVal.noConfusion (Option.some.inj h)

/-- C5: on the stream `garbage\n\nok\n`, lenient completion scanning
discards the unexpected line and succeeds, while strict scanning raises
the protocol-violation exception carrying the unexpected line, which is
distinct from a peer-reported error. -/
theorem c5_unexpected_line_lenient_vs_strict :
    Conn.drain_and_check_ok (linereader ("garbage\n\nok\n".data)) = .ok ∧
    Conn.check_ok (linereader ("garbage\n\nok\n".data)) =
      .protocolViolation ("garbage".data) := by
  decide

/-- The lines produced by a stream holding one blank line and then one
`error ` line. -/
theorem linereader_error_stream (m : List Char) (hm : '\n' ∉ m) :
    linereader ('\n' :: ("error ".data ++ m ++ ['\n'])) =
      [[], "error ".data ++ m] := by
  have hpre : '\n' ∉ ("error ".data ++ m) := by
    simp only [List.mem_append, not_or]
    exact ⟨by decide, hm⟩
  have h1 : readline ('\n' :: (("error ".data ++ m) ++ ['\n'])) =
      (['\n'], ("error ".data ++ m) ++ ['\n']) := by
    simp [readline]
  have h2 : readline (("error ".data ++ m) ++ ['\n']) =
      (("error ".data ++ m) ++ ['\n'], []) := by
    simpa using readline_append_newline [] hpre
  rw [linereader_cons_of_readline h1 (by simp),
    linereader_cons_of_readline h2 (by simp), List.dropLast_concat]
  rfl

/-- C6: for every message `m` (a single line), a stream holding a blank
line followed by the line `error ` ++ m makes completion scanning, in
either mode, return the distinguished peer-error value carrying exactly
`m`; blank lines are skipped, and a line equal to `ok` yields success. -/
theorem c6_peer_error_returned (m : List Char) (hm : '\n' ∉ m) :
    Conn.drain_and_check_ok (linereader ('\n' :: ("error ".data ++ m ++ ['\n']))) =
      .notOk m ∧
    Conn.check_ok (linereader ('\n' :: ("error ".data ++ m ++ ['\n']))) =
      .notOk m ∧
    (∀ onempty ls, Conn.check_ok_aux onempty ([] :: ls) =
      Conn.check_ok_aux onempty ls) ∧
    (∀ onempty ls, Conn.check_ok_aux onempty ("ok".data :: ls) = .ok) := by
  rw [linereader_error_stream m hm]
  refine ⟨?_, ?_, check_ok_aux_blank, check_ok_aux_ok_line⟩
  · unfold Conn.drain_and_check_ok
    rw [check_ok_aux_blank, check_ok_aux_error_line]
  · unfold Conn.check_ok
    rw [check_ok_aux_blank, check_ok_aux_error_line]

/-- Witness for C6 at the concrete message `disk full`. -/
theorem c6_witness :
    Conn.drain_and_check_ok
      (linereader ('\n' :: ("error ".data ++ "disk full".data ++ ['\n']))) =
      .notOk ("disk full".data) :=
  (c6_peer_error_returned ("disk full".data) (by decide)).1

/-- C7 counterexample: the stream `garbage\n` reaches end of stream
without any `ok` line or `error `-led line, yet strict-mode scanning
raises the protocol-violation exception for `garbage`, not the
peer-exited-unexpectedly exception the claim promises for both modes. -/
theorem c7_counterexample :
    linereader ("garbage\n".data) = ["garbage".data] ∧
    "garbage".data ≠ "ok".data ∧
    ("error ".data.isPrefixOf ("garbage".data)) = false ∧
    Conn.check_ok (linereader ("garbage\n".data)) =
      .protocolViolation ("garbage".data) ∧
    Conn.check_ok (linereader ("garbage\n".data)) ≠ .unexpectedExit := by
  decide

/-- C7 amended: on a stream whose lines never include `ok` or a line
led by `error `, lenient scanning always raises
peer-exited-unexpectedly; strict scanning raises either that exception
or a protocol violation at some line of the stream; neither mode
returns normally (no success, no peer-error value). -/
theorem c7_amended_no_sentinel (s : List Char)
    (h : ∀ rl ∈ linereader s,
      rl ≠ "ok".data ∧ "error ".data.isPrefixOf rl = false) :
    Conn.drain_and_check_ok (linereader s) = .unexpectedExit ∧
    (Conn.check_ok (linereader s) = .unexpectedExit ∨
      ∃ rl ∈ linereader s,
        Conn.check_ok (linereader s) = .protocolViolation rl) ∧
    Conn.check_ok (linereader s) ≠ .ok ∧
    ∀ msg, Conn.check_ok (linereader s) ≠ .notOk msg :=
  ⟨check_ok_aux_no_sentinel_drain _ h,
   (check_ok_aux_no_sentinel_strict _ h).1,
   (check_ok_aux_no_sentinel_strict _ h).2.1,
   (check_ok_aux_no_sentinel_strict _ h).2.2⟩

/-- Witness for the amended C7 at the concrete stream `garbage\n`. -/
theorem c7_witness :
    Conn.drain_and_check_ok (linereader ("garbage\n".data)) = .unexpectedExit :=
  (c7_amended_no_sentinel ("garbage\n".data) (by decide)).1

/-- C9: `linereader` removes the final character of every `readline`
result even when the last line is unterminated, so a trailing `ok`
without a newline is yielded as `o` and is not recognized as success:
lenient scanning fails with the unexpected-exit error and strict
scanning treats `o` as an unexpected line. -/
theorem c9_unterminated_final_line :
    (∀ s : List Char, '\n' ∉ s → s ≠ [] → linereader s = [s.dropLast]) ∧
    linereader ("ok".data) = [['o']] ∧
    Conn.drain_and_check_ok (linereader ("ok".data)) = .unexpectedExit ∧
    Conn.check_ok (linereader ("ok".data)) = .protocolViolation ['o'] := by
  refine ⟨fun s h hne => ?_, by decide, by decide, by decide⟩
  rw [linereader_cons_of_readline (readline_of_no_newline h) hne]
  rfl

/-- Witness for C9 at the concrete unterminated stream `ab`. -/
theorem c9_witness : linereader ("ab".data) = [['a']] :=
  c9_unterminated_final_line.1 ("ab".data) (by decide) (by decide)

/-- C10: a line equal to `error` with no trailing space is not a
peer-error sentinel: it goes to the unexpected-line handler (discarded
in lenient mode, protocol violation in strict mode), while a line led
by the six characters `error ` always returns the peer-error value
carrying everything after them. -/
theorem c10_bare_error_line :
    (∀ ls, Conn.drain_and_check_ok ("error".data :: ls) =
      Conn.drain_and_check_ok ls) ∧
    (∀ ls, Conn.check_ok ("error".data :: ls) =
      .protocolViolation ("error".data)) ∧
    (∀ onempty m ls, Conn.check_ok_aux onempty (("error ".data ++ m) :: ls) =
      .notOk m) := by
  refine ⟨fun ls => ?_, fun ls => ?_,
    fun onempty m ls => check_ok_aux_error_line _ _ _⟩
  · unfold Conn.drain_and_check_ok
    rw [check_ok_aux_other_line _ _ _ (by decide) (by decide) (by decide)]
  · unfold Conn.check_ok
    rw [check_ok_aux_other_line _ _ _ (by decide) (by decide) (by decide)]

end BupHelpers

namespace BupHelpers

/-! ### Helper lemmas about whitespace collapsing. -/

theorem collapseAux_space_mem :
    ∀ (b : Bool) (m : List Char), ∀ c ∈ collapseAux b m,
      isPySpace c = true → c = ' ' := by
  intro b m
  induction m generalizing b with
  | nil => intro c hc; simp [collapseAux] at hc
  | cons hd tl ih =>
    intro c hc hsp
    by_cases hw : isPySpace hd
    · cases b with
      | true =>
        rw [show collapseAux true (hd :: tl) = collapseAux true tl by
          simp [collapseAux, hw]] at hc
        exact ih true c hc hsp
      | false =>
        rw [show collapseAux false (hd :: tl) = ' ' :: collapseAux true tl by
          simp [collapseAux, hw]] at hc
        rcases List.mem_cons.mp hc with h | h
        · exact h
        · exact ih true c h hsp
    · rw [show collapseAux b (hd :: tl) = hd :: collapseAux false tl by
        simp [collapseAux, hw]] at hc
      rcases List.mem_cons.mp hc with h | h
      · subst h; exact absurd hsp hw
      · exact ih false c h hsp

theorem collapseAux_filter :
    ∀ (b : Bool) (m : List Char),
      (collapseAux b m).filter (fun c => !isPySpace c) =
        m.filter (fun c => !isPySpace c) := by
  intro b m
  induction m generalizing b with
  | nil => simp [collapseAux]
  | cons hd tl ih =>
    by_cases hw : isPySpace hd
    · cases b with
      | true => simp [collapseAux, hw, List.filter, ih]
      | false =>
        simp [collapseAux, hw, List.filter, ih,
          show isPySpace ' ' = true from rfl]
    · simp [collapseAux, hw, List.filter, ih]

theorem collapseAux_true_head :
    ∀ (m : List Char) (c : Char) (l : List Char),
      collapseAux true m = c :: l → isPySpace c = false := by
  intro m
  induction m with
  | nil => intro c l h; simp [collapseAux] at h
  | cons hd tl ih =>
    intro c l h
    by_cases hw : isPySpace hd
    · rw [show collapseAux true (hd :: tl) = collapseAux true tl by
        simp [collapseAux, hw]] at h
      exact ih c l h
    · rw [show collapseAux true (hd :: tl) = hd :: collapseAux false tl by
        simp [collapseAux, hw]] at h
      cases h
      simpa using hw

theorem collapseAux_chain :
    ∀ (b : Bool) (m : List Char),
      List.Chain' (fun x y => ¬(isPySpace x = true ∧ isPySpace y = true))
        (collapseAux b m) := by
  intro b m
  induction m generalizing b with
  | nil => simp [collapseAux]
  | cons hd tl ih =>
    by_cases hw : isPySpace hd
    · cases b with
      | true =>
        rw [show collapseAux true (hd :: tl) = collapseAux true tl by
          simp [collapseAux, hw]]
        exact ih true
      | false =>
        rw [show collapseAux false (hd :: tl) = ' ' :: collapseAux true tl by
          simp [collapseAux, hw]]
        refine List.chain'_cons'.mpr ⟨?_, ih true⟩
        intro y hy
        rcases hcol : collapseAux true tl with _ | ⟨z, zs⟩
        · rw [hcol] at hy; simp at hy
        · rw [hcol] at hy
          simp only [List.head?_cons, Option.mem_def, Option.some.injEq] at hy
          subst hy
          simp [collapseAux_true_head tl z zs hcol]
    · rw [show collapseAux b (hd :: tl) = hd :: collapseAux false tl by
        simp [collapseAux, hw]]
      refine List.chain'_cons'.mpr ⟨?_, ih false⟩
      intro y hy
      simp [hw]

/-- C8: `Conn.error` writes exactly a newline, the six characters
`error `, the whitespace-collapsed message, and a final newline; in the
collapsed message every whitespace character is a single space (so no
internal newline survives), no two adjacent characters are both
whitespace (each maximal run became one space), and all non-whitespace
characters are preserved in order. -/
theorem c8_error_whitespace (m : List Char) :
    Conn.error m = '\n' :: ("error ".data ++ collapseWS m ++ ['\n']) ∧
    (∀ c ∈ collapseWS m, isPySpace c = true → c = ' ') ∧
    '\n' ∉ collapseWS m ∧
    List.Chain' (fun x y => ¬(isPySpace x = true ∧ isPySpace y = true))
      (collapseWS m) ∧
    (collapseWS m).filter (fun c => !isPySpace c) =
      m.filter (fun c => !isPySpace c) := by
  refine ⟨rfl, collapseAux_space_mem false m, ?_, collapseAux_chain false m,
    collapseAux_filter false m⟩
  intro hmem
  exact absurd (collapseAux_space_mem false m '\n' hmem (by decide)) (by decide)

/-- Witness for C8 at a concrete message holding an embedded newline. -/
theorem c8_witness : '\n' ∉ collapseWS ("a\nb".data) :=
  (c8_error_whitespace ("a\nb".data)).2.2.1

/-- C3 counterexample: `Conn.write` performs one buffered stream write;
on a fresh stream the nonempty payload reaches the buffer and zero
bytes reach the descriptor, refuting the claim that `Conn.write` itself
guarantees delivery of all bytes by polling and retrying. -/
theorem c3_counterexample :
    (Conn.write ("ab".data) ⟨[], []⟩).sent = [] ∧
    (Conn.write ("ab".data) ⟨[], []⟩).buffered = "ab".data ∧
    "ab".data ≠ [] := by
  refine ⟨rfl, rfl, by decide⟩

/-- C3 amended: `Conn.write(data)` only appends `data` to the output
stream buffer, in order and unchanged; the bytes reach the descriptor
at the next flush.  The polling retry loop the claim describes is the
module-level `_hard_write`, which `Conn.write` does not call. -/
theorem c3_amended_buffered_write (data : List Char) (st : OutStream) :
    Conn.write data st = ⟨st.buffered ++ data, st.sent⟩ ∧
    OutStream.flush (Conn.write data st) =
      ⟨[], st.sent ++ (st.buffered ++ data)⟩ :=
  ⟨rfl, rfl⟩

/-! ### Helper lemma for `_hard_write` under an environment that
reports the descriptor writable yet accepts zero bytes per write. -/

theorem hardWriteRun_zero_progress :
    ∀ (fuel i : Nat) (buf : List Char) (last : Option Nat), buf ≠ [] →
      hardWriteRun selWritable wrZero i fuel buf last = .outOfFuel := by
  intro fuel
  induction fuel with
  | zero =>
    intro i buf last h
    cases buf with
    | nil => exact absurd rfl h
    | cons c cs => rfl
  | succ n ih =>
    intro i buf last h
    cases buf with
    | nil => exact absurd rfl h
    | cons c cs =>
      simp only [hardWriteRun, selWritable, wrZero, if_true, List.drop]
      exact ih (i + 1) (c :: cs) (some 0) h

/-- C4 counterexample: against a descriptor that every poll reports
writable and whose every write accepts zero bytes, `_hard_write` makes
no progress and never leaves the loop — for no amount of fuel does the
run finish, raise, or otherwise escape — refuting the claim that it
eventually raises a fatal I/O error in this situation. -/
theorem c4_counterexample :
    ¬ ∃ n, hardWriteRun selWritable wrZero 0 n ("x".data) none ≠ .outOfFuel := by
  rintro ⟨n, hn⟩
  exact hn (hardWriteRun_zero_progress n 0 ("x".data) none (by decide))

/-- C4 amended: a readiness poll that reports no writable descriptor
makes `_hard_write` raise `IOError` at once (fatal, as claimed); but a
descriptor reported writable that accepts zero bytes on every attempt
makes `_hard_write` loop forever with zero progress instead of ever
raising. -/
theorem c4_amended_poll_vs_zero_progress :
    (∀ (sel : Nat → Bool) (wr : Nat → WriteRes) (i fuel : Nat) (c : Char)
      (cs : List Char) (last : Option Nat), sel i = false →
      hardWriteRun sel wr i (fuel + 1) (c :: cs) last = .raisedIOError) ∧
    (∀ (i fuel : Nat) (buf : List Char) (last : Option Nat), buf ≠ [] →
      hardWriteRun selWritable wrZero i fuel buf last = .outOfFuel) := by
  constructor
  · intro sel wr i fuel c cs last h
    simp only [hardWriteRun, h]
    rfl
  · intro i fuel buf last h
    exact hardWriteRun_zero_progress fuel i buf last h

/-- Witness for the amended C4 at concrete environments. -/
theorem c4_witness :
    hardWriteRun selNever wrZero 0 1 ("x".data) none = .raisedIOError ∧
    hardWriteRun selWritable wrZero 3 5 ("x".data) none = .outOfFuel :=
  ⟨c4_amended_poll_vs_zero_progress.1 selNever wrZero 0 0 'x' [] none rfl,
   c4_amended_poll_vs_zero_progress.2 3 5 ("x".data) none (by decide)⟩

end BupHelpers
